import Mathlib

/-!
Shallow embedding of rye `src/rye/src/utils.rs`.

Paths are modelled as the component lists that Rust `Path::components()`
produces on Unix; the entry loop of `unpack_tarball` (lines 102-118) is
modelled as a fold over decoded archive entries (zstd decoding and the tar
reader are external library calls upstream of everything the claims touch).
The env-var template expansion, requirement formatting and the `auth`
encrypt/decrypt wrappers are modelled below as well.
-/

namespace Rye

/-- Path components as produced by Rust `Path::components()` on Unix:
a root component for a leading slash, `.` kept only at the start of a
relative path, `..` kept everywhere, empty segments dropped. -/
inductive Component where
  | root
  | cur
  | parentDir
  | normal (s : String)
  deriving DecidableEq, Repr

/-- Splits a character list at slashes (helper for `pathComponents`). -/
def splitSlash : List Char → List (List Char)
  | [] => [[]]
  | c :: rest =>
    let r := splitSlash rest
    if c = '/' then [] :: r
    else
      match r with
      | [] => [[c]]
      | seg :: segs => (c :: seg) :: segs

/-- A non-leading path segment as a component: `.` is normalized away,
`..` becomes the parent component, anything else is a normal component. -/
def segComponent (p : List Char) : Option Component :=
  if p = ['.'] then none
  else if p = ['.', '.'] then some Component.parentDir
  else some (Component.normal (String.mk p))

/-- The component list of a path string, following the normalization rules
of Rust `Path::components()`. -/
def pathComponents (s : String) : List Component :=
  let cs := s.toList
  let hasRoot : Bool :=
    match cs with
    | '/' :: _ => true
    | _ => false
  let parts := (splitSlash cs).filter (fun p => p ≠ [])
  let rest :=
    match parts with
    | [] => []
    | p :: ps =>
      (if p = ['.'] && !hasRoot then [Component.cur] else (segComponent p).toList)
        ++ ps.filterMap segComponent
  (if hasRoot then [Component.root] else []) ++ rest

/-- Rust `Path::join`: an absolute right operand replaces the base,
otherwise the components are appended. -/
def joinPath (base p : List Component) : List Component :=
  if p.head? = some Component.root then p else base ++ p

/-- Rust `Path::strip_prefix(base).is_ok()`: the components of `base` are
literally (lexically, with no `..` resolution) a leading run of the
components of the path. -/
def stripPrefixOk : List Component → List Component → Bool
  | [], _ => true
  | _ :: _, [] => false
  | b :: bs, p :: ps => b == p && stripPrefixOk bs ps

/-- The destination path of one archive entry in `unpack_tarball`:
drop `strip_components` leading components of the stored name
(`components.next()` in a loop), then `dst.join(components.as_path())`. -/
def entryTarget (dst : List Component) (stripComponents : Nat)
    (name : List Component) : List Component :=
  joinPath dst (name.drop stripComponents)

/-- The guard on line 112 of utils.rs:
`path != Path::new("") && path.strip_prefix(dst).is_ok()`. -/
def safeToUnpack (dst path : List Component) : Bool :=
  !path.isEmpty && stripPrefixOk dst path

/-- Lexical resolution of `.` and `..` as the operating system performs it
when a path is actually opened: `..` cancels a preceding normal component,
the parent of the root is the root. Used to state where a written file
really lands. -/
def resolveStep (acc : List Component) (c : Component) : List Component :=
  match c with
  | Component.root => [Component.root]
  | Component.cur => acc
  | Component.parentDir =>
    match acc.getLast? with
    | some (Component.normal _) => acc.dropLast
    | some Component.root => acc
    | _ => acc ++ [Component.parentDir]
  | Component.normal s => acc ++ [Component.normal s]

/-- Resolves every component of a path in order. -/
def resolvePath (p : List Component) : List Component :=
  p.foldl resolveStep []

/-- One archive entry as the unpack loop sees it: its stored name plus the
outcomes of the two filesystem effects the loop performs on it
(`fs::create_dir_all(dir)` and `entry.unpack(&path)`). -/
structure TarEntry where
  name : List Component
  mkdirResult : Except String Unit
  unpackResult : Except String Unit

/-- The entry loop of `unpack_tarball` (lines 102-118): for each entry,
compute the target path, run the guard; when the guard passes, create the
parent directories discarding the result (`.ok()`), then unpack the entry,
propagating its error with `?`. Returns the list of target paths actually
written. -/
def unpackEntries (dst : List Component) (stripComponents : Nat) :
    List TarEntry → Except String (List (List Component))
  | [] => Except.ok []
  | e :: rest =>
    let path := entryTarget dst stripComponents e.name
    if safeToUnpack dst path then
      let _ := e.mkdirResult.toOption
      match e.unpackResult with
      | Except.error msg => Except.error msg
      | Except.ok _ =>
        match unpackEntries dst stripComponents rest with
        | Except.error msg => Except.error msg
        | Except.ok paths => Except.ok (path :: paths)
    else
      unpackEntries dst stripComponents rest

/-- The destination root `/tmp/out` of the spec scenarios. -/
def outRoot : List Component := pathComponents "/tmp/out"

/-- The hostile entry name of the traversal scenario. -/
def passwdEntry : List Component := pathComponents "../../etc/passwd"

/-- The entry name of the strip-one scenario. -/
def pkgEntry : List Component := pathComponents "pkg-1.0/bin/tool"

/-- An entry name that strips to an empty remainder with strip count 1. -/
def pkgTop : List Component := pathComponents "pkg-1.0"

/-- The opening brace character. -/
def braceOpen : Char := Char.ofNat 123

/-- The closing brace character. -/
def braceClose : Char := Char.ofNat 125

/-- The character class `[A-Z0-9_]` of the regex `ENV_VAR_RE` on line 11. -/
def isEnvVarChar (c : Char) : Bool :=
  ('A' ≤ c && c ≤ 'Z') || ('0' ≤ c && c ≤ '9') || c = '_'

/-- Matches the `[A-Z0-9_]+\x7d` tail of `ENV_VAR_RE` against the characters
following an opening `$` and brace: a nonempty run of variable characters
closed by a brace. Returns the variable name and the remaining input. -/
def matchVar (cs : List Char) : Option (String × List Char) :=
  let name := cs.takeWhile isEnvVarChar
  let rest := cs.dropWhile isEnvVarChar
  if name.isEmpty then none
  else
    match rest with
    | c :: rest' => if c = braceClose then some (String.mk name, rest') else none
    | [] => none

/-- The leftmost-match scan of `Regex::replace_all` for `ENV_VAR_RE`,
with fuel (every step consumes at least one character, so fuel equal to the
input length suffices): a matched variable is replaced by the resolver
result, or the empty string when the resolver yields nothing
(`unwrap_or_default` on line 91); everything else is copied unchanged. -/
def expandAux (f : String → Option String) : Nat → List Char → List Char
  | 0, cs => cs
  | _ + 1, [] => []
  | fuel + 1, c :: cs =>
    if c = '$' then
      match cs with
      | c' :: cs' =>
        if c' = braceOpen then
          match matchVar cs' with
          | some nr => ((f nr.1).getD "").toList ++ expandAux f fuel nr.2
          | none => c :: expandAux f fuel cs
        else c :: expandAux f fuel cs
      | [] => [c]
    else c :: expandAux f fuel cs

/-- `expand_env_vars` (lines 87-92): replace every `ENV_VAR_RE` match in the
string using the resolver, leftmost first, in a single pass. -/
def expand_env_vars (s : String) (f : String → Option String) : String :=
  String.mk (expandAux f s.toList.length s.toList)

/-- Rust `str::replace`: replace every non-overlapping occurrence of the
pattern, scanning left to right, with fuel as in `expandAux`. -/
def strReplaceAux (pat rep : List Char) : Nat → List Char → List Char
  | _, [] => []
  | 0, cs => cs
  | fuel + 1, c :: cs =>
    if pat != [] && pat.isPrefixOf (c :: cs) then
      rep ++ strReplaceAux pat rep fuel ((c :: cs).drop pat.length)
    else
      c :: strReplaceAux pat rep fuel cs

/-- Rust `str::replace` on strings. -/
def strReplace (s pat rep : String) : String :=
  String.mk (strReplaceAux pat.toList rep.toList s.toList.length s.toList)

/-- The URL rendering of `format_requirement` (line 71):
`url.to_string().replace("%7B", "\x7b").replace("%7D", "\x7d")`, turning the
percent-encoded braces back into literal braces. -/
def decodeBraces (u : String) : String :=
  strReplace (strReplace u "%7B" "\x7b") "%7D" "\x7d"

/-- The version-or-URL part of a pep508 `Requirement`; version specifiers
are kept in their rendered textual form. -/
inductive VersionOrUrl where
  | versionSpecifier (specs : List String)
  | url (u : String)

/-- The fields of a pep508 `Requirement` that `format_requirement` reads. -/
structure Requirement where
  name : String
  extras : Option (List String)
  version_or_url : Option VersionOrUrl
  marker : Option String

/-- `format_requirement` (lines 50-84): name, then `[extras]` joined with
commas, then either the version specifiers joined with a comma and space or
`@` and the URL with percent-encoded braces decoded, then the marker. -/
def format_requirement (req : Requirement) : String :=
  req.name
    ++ (match req.extras with
        | some extras => "[" ++ String.intercalate "," extras ++ "]"
        | none => "")
    ++ (match req.version_or_url with
        | none => ""
        | some (VersionOrUrl.versionSpecifier vs) => String.intercalate ", " vs
        | some (VersionOrUrl.url u) => " @ " ++ decodeBraces u)
    ++ (match req.marker with
        | some m => " ; " ++ m
        | none => "")

/-- The functional interface of the external `ring` AES-256-GCM primitive
used by the `auth` module: sealing produces a ciphertext of the plaintext
length, the authentication tag is 16 bytes, and opening a blob sealed under
the same key and nonce returns the plaintext. The rye wrappers below are
parametrized over this interface; bytes are naturals below 256. -/
structure AeadAlg where
  sealBytes : List Nat → List Nat → List Nat → List Nat
  tagBytes : List Nat → List Nat → List Nat → List Nat
  openBytes : List Nat → List Nat → List Nat → Option (List Nat)
  seal_length : ∀ k n p, (sealBytes k n p).length = p.length
  tag_length : ∀ k n p, (tagBytes k n p).length = 16
  open_seal : ∀ k n p, openBytes k n (sealBytes k n p ++ tagBytes k n p) = some p

/-- `auth::encrypt` (lines 145-163). The 12 random bytes that
`SystemRandom::fill` writes into the nonce slice are passed explicitly.
`UnboundKey::new` fails exactly when the key length is not 32 and its
`.expect` then panics, modelled as an error result;
`seal_in_place_append_tag` appends the tag to the ciphertext. The nonce is
not part of the returned blob. -/
def encrypt (A : AeadAlg) (data passphrase nonce : List Nat) :
    Except String (List Nat) :=
  if passphrase.length ≠ 32 then
    Except.error "panic: unbound key for encryption"
  else
    Except.ok (A.sealBytes passphrase nonce data ++ A.tagBytes passphrase nonce data)

/-- `auth::decrypt` (lines 165-178). A bad key length returns `none` via
`.ok()?`; then `data[..12]` panics when the input is shorter than 12 bytes;
then the whole input is opened under the nonce read from its own first 12
bytes, any opening failure collapsing to `none`. -/
def decrypt (A : AeadAlg) (data passphrase : List Nat) :
    Except String (Option (List Nat)) :=
  if passphrase.length ≠ 32 then Except.ok none
  else if data.length < 12 then
    Except.error "panic: range end index 12 out of range"
  else
    Except.ok (A.openBytes passphrase (data.take 12) data)

/-- A 16-byte tag depending on key, nonce and message (executable stand-in
for the GCM tag; any dependence on the nonce suffices for the statements
below). -/
def toyTag (k n p : List Nat) : List Nat :=
  (List.range 16).map (fun i => (k.sum + 3 * n.sum + 5 * p.sum + i) % 256)

/-- Opening for the executable cipher instance: split off the final 16
bytes and compare them against the tag recomputed under the given key and
nonce. -/
def toyOpen (k n blob : List Nat) : Option (List Nat) :=
  if blob.length < 16 then none
  else
    let ct := blob.take (blob.length - 16)
    let tg := blob.drop (blob.length - 16)
    if tg = toyTag k n ct then some ct else none

/-- An executable instance of the AEAD interface (identity encryption with
the nonce-dependent tag of `toyTag`), used to run the rye wrappers on
concrete inputs. -/
def toyAead : AeadAlg where
  sealBytes := fun _ _ p => p
  tagBytes := toyTag
  openBytes := toyOpen
  seal_length := fun _ _ _ => rfl
  tag_length := by
    intro k n p
    simp [toyTag]
  open_seal := by
    intro k n p
    have hlen : (p ++ toyTag k n p).length = p.length + 16 := by
      simp [toyTag]
    simp only [toyOpen, hlen, Nat.add_sub_cancel]
    rw [if_neg (by omega)]
    rw [List.take_left, List.drop_left]
    simp

/-- A 32-byte all-zero passphrase (an admissible AES-256-GCM key). -/
def zeroKey : List Nat := List.replicate 32 0

/-- The 12 random bytes the model feeds to `encrypt` as the generated
nonce. -/
def rngNonce : List Nat := List.replicate 12 7

/-- Helper: `stripPrefixOk` is reflexive, i.e. `strip_prefix` succeeds on
the path itself. -/
theorem stripPrefixOk_self (l : List Component) : stripPrefixOk l l = true := by
  induction l with
  | nil => rfl
  | cons a t ih => simp [stripPrefixOk, ih]

/-- Claim C1: the entry named `../../etc/passwd` with strip count 0 against
root `/tmp/out` is NOT skipped by the guard of `unpack_tarball` — the guard
accepts it, the loop writes it at `/tmp/out/../../etc/passwd`, and that
path resolves to `/etc/passwd`, which does not lie under the root. This
refutes the claim that such entries are skipped and that no file is created
outside the root. -/
theorem traversal_entry_not_skipped :
    safeToUnpack outRoot (entryTarget outRoot 0 passwdEntry) = true
    ∧ unpackEntries outRoot 0 [⟨passwdEntry, Except.ok (), Except.ok ()⟩]
        = Except.ok [entryTarget outRoot 0 passwdEntry]
    ∧ resolvePath (entryTarget outRoot 0 passwdEntry)
        = [Component.root, Component.normal "etc", Component.normal "passwd"]
    ∧ stripPrefixOk outRoot (resolvePath (entryTarget outRoot 0 passwdEntry)) = false :=
  ⟨rfl, rfl, rfl, rfl⟩

/-- Claim C5, counterexample: the entry `pkg-1.0` with strip count 1 has an
empty remainder, yet the guard accepts it (the joined path is the root
itself), contradicting the claim that an empty remainder is rejected. -/
theorem empty_remainder_accepted :
    pkgTop.drop 1 = [] ∧ safeToUnpack outRoot (entryTarget outRoot 1 pkgTop) = true :=
  ⟨rfl, rfl⟩

/-- Claim C5, amended: when the stripped remainder is empty, the guard of
`unpack_tarball` rejects the entry exactly when the destination root is
itself the empty path; for a nonempty root the joined path equals the root
and the entry is accepted. -/
theorem empty_remainder_guard (dst name : List Component) (strip : Nat)
    (h : name.drop strip = []) :
    (safeToUnpack dst (entryTarget dst strip name) = false ↔ dst = []) := by
  have ht : entryTarget dst strip name = dst := by
    simp [entryTarget, joinPath, h]
  rw [ht]
  cases dst with
  | nil => simp [safeToUnpack]
  | cons a t => simp [safeToUnpack, stripPrefixOk_self]

/-- Witness for the amended claim C5 at the entry `pkg-1.0`, strip count 1
and root `/tmp/out`. -/
theorem empty_remainder_guard_witness :
    pkgTop.drop 1 = []
    ∧ (safeToUnpack outRoot (entryTarget outRoot 1 pkgTop) = false ↔ outRoot = []) :=
  ⟨rfl, empty_remainder_guard outRoot pkgTop 1 rfl⟩

/-- Claim C6: the result of the unpack loop does not depend on the outcome
of `fs::create_dir_all` (its result is discarded with `.ok()`), while an
`entry.unpack` failure on an accepted entry is propagated as the error of
the whole extraction, so no later entry is processed. -/
theorem mkdir_absorbed_write_fatal (dst : List Component) (strip : Nat)
    (nm : List Component) (m₁ m₂ u : Except String Unit) (rest : List TarEntry) :
    unpackEntries dst strip (⟨nm, m₁, u⟩ :: rest) = unpackEntries dst strip (⟨nm, m₂, u⟩ :: rest)
    ∧ (∀ msg, safeToUnpack dst (entryTarget dst strip nm) = true →
        u = Except.error msg →
        unpackEntries dst strip (⟨nm, m₁, u⟩ :: rest) = Except.error msg) := by
  constructor
  · rfl
  · intro msg hs hu
    subst hu
    simp [unpackEntries, hs]

/-- Witness for claim C6: a failing directory creation leaves the outcome
unchanged, and a failing write aborts with that error. -/
theorem mkdir_absorbed_write_fatal_witness :
    (unpackEntries outRoot 0
        (⟨pathComponents "a", Except.error "mkdir failed", Except.error "disk full"⟩
          :: [⟨pathComponents "b", Except.ok (), Except.ok ()⟩])
      = unpackEntries outRoot 0
        (⟨pathComponents "a", Except.ok (), Except.error "disk full"⟩
          :: [⟨pathComponents "b", Except.ok (), Except.ok ()⟩]))
    ∧ unpackEntries outRoot 0
        (⟨pathComponents "a", Except.error "mkdir failed", Except.error "disk full"⟩
          :: [⟨pathComponents "b", Except.ok (), Except.ok ()⟩])
      = Except.error "disk full" :=
  ⟨(mkdir_absorbed_write_fatal outRoot 0 (pathComponents "a") (Except.error "mkdir failed")
      (Except.ok ()) (Except.error "disk full")
      [⟨pathComponents "b", Except.ok (), Except.ok ()⟩]).1,
    (mkdir_absorbed_write_fatal outRoot 0 (pathComponents "a") (Except.error "mkdir failed")
      (Except.ok ()) (Except.error "disk full")
      [⟨pathComponents "b", Except.ok (), Except.ok ()⟩]).2
      "disk full" rfl rfl⟩

/-- Claim C7: the entry `pkg-1.0/bin/tool` with strip count 1 against root
`/tmp/out` is accepted and written exactly at `/tmp/out/bin/tool`. -/
theorem strip_one_places_under_root :
    unpackEntries outRoot 1 [⟨pkgEntry, Except.ok (), Except.ok ()⟩]
      = Except.ok [pathComponents "/tmp/out/bin/tool"] := rfl

/-- Claim C8: `expand_env_vars` replaces a resolved variable by its value,
replaces an unresolved variable by the empty string, and leaves a string
without the pattern unchanged for every resolver. -/
theorem expand_env_vars_examples :
    expand_env_vars "a${X}b" (fun n => if n = "X" then some "Y" else none) = "aYb"
    ∧ expand_env_vars "a${X}b" (fun _ => none) = "ab"
    ∧ ∀ f : String → Option String, expand_env_vars "plain text" f = "plain text" :=
  ⟨rfl, rfl, fun _ => rfl⟩

/-- Claim C9: for every requirement whose version-or-URL part is a URL,
`format_requirement` renders the URL with the percent-encoded braces
`%7B` and `%7D` turned back into literal braces; in particular the file URL
of the repository test renders with `$` and braces intact. -/
theorem url_braces_preserved :
    (∀ (n u : String) (ex : Option (List String)) (mk : Option String),
        format_requirement ⟨n, ex, some (VersionOrUrl.url u), mk⟩
          = n
            ++ (match ex with
                | some extras => "[" ++ String.intercalate "," extras ++ "]"
                | none => "")
            ++ (" @ " ++ decodeBraces u)
            ++ (match mk with
                | some m => " ; " ++ m
                | none => ""))
    ∧ format_requirement
        ⟨"foo", none, some (VersionOrUrl.url "file:///$%7BPROJECT_ROOT%7D/foo"), none⟩
      = "foo @ file:///${PROJECT_ROOT}/foo" :=
  ⟨fun _ _ _ _ => rfl, rfl⟩

/-- Claim C2: the AEAD round trip fails on the code as written. Even for a
cipher instance that satisfies the seal/open contract (first conjunct),
composing `decrypt` with `encrypt` under the same admissible key yields
`none` rather than the plaintext, because `encrypt` discards the nonce it
generated and `decrypt` reads the first 12 bytes of the ciphertext-plus-tag
blob as the nonce. -/
theorem roundtrip_decrypt_encrypt_fails :
    toyAead.openBytes zeroKey rngNonce
        (toyAead.sealBytes zeroKey rngNonce [1, 2, 3]
          ++ toyAead.tagBytes zeroKey rngNonce [1, 2, 3])
      = some [1, 2, 3]
    ∧ encrypt toyAead [1, 2, 3] zeroKey rngNonce
        = Except.ok ([1, 2, 3] ++ toyTag zeroKey rngNonce [1, 2, 3])
    ∧ decrypt toyAead ([1, 2, 3] ++ toyTag zeroKey rngNonce [1, 2, 3]) zeroKey
        = Except.ok none :=
  ⟨rfl, rfl, rfl⟩

/-- Claim C3: `decrypt` is not total — on a sealed blob shorter than 12
bytes with an admissible 32-byte key, the slice `data[..12]` panics instead
of returning `none` (first conjunct); a bad key, checked earlier, does
collapse to `none` (second conjunct). -/
theorem decrypt_short_input_panics :
    decrypt toyAead [] zeroKey = Except.error "panic: range end index 12 out of range"
    ∧ decrypt toyAead [] [1, 2, 3] = Except.ok none :=
  ⟨rfl, rfl⟩

/-- Claim C4: on a key of inadmissible length, `encrypt` panics through
`.expect` instead of returning an error result. -/
theorem encrypt_bad_key_panics :
    encrypt toyAead [1, 2, 3] [0, 1, 2, 3, 4] rngNonce
      = Except.error "panic: unbound key for encryption" := rfl

/-- Claim C10: for every plaintext and every 32-byte passphrase, `encrypt`
succeeds and the returned blob is the ciphertext followed by the 16-byte
tag, of total length plaintext length plus 16; the generated 12-byte nonce
is not part of the blob. -/
theorem encrypt_ok_length (A : AeadAlg) (data passphrase nonce : List Nat)
    (h : passphrase.length = 32) :
    ∃ blob, encrypt A data passphrase nonce = Except.ok blob
      ∧ blob.length = data.length + 16 := by
  refine ⟨A.sealBytes passphrase nonce data ++ A.tagBytes passphrase nonce data, ?_, ?_⟩
  · simp [encrypt, h]
  · simp [A.seal_length, A.tag_length]

/-- Witness for claim C10 at a three-byte plaintext and the 32-byte zero
key. -/
theorem encrypt_ok_length_witness :
    ∃ blob, encrypt toyAead [1, 2, 3] zeroKey rngNonce = Except.ok blob
      ∧ blob.length = ([1, 2, 3] : List Nat).length + 16 :=
  encrypt_ok_length toyAead [1, 2, 3] zeroKey rngNonce rfl

end Rye
